import Mathlib

set_option maxHeartbeats 1000000

namespace WaterOCR

/-! Shallow embedding of `src/android/src/main/cpp/paddle_ocr_jni.cpp`.

Machine `float` values are modelled as rationals: every value the embedded
code produces is of the form `byte / 255`, a model-supplied tensor value, or
the literal `0.5`, and `ℚ` carries these exactly.  Packed 32-bit pixel words
are `Nat` values; on an unsigned word, `(p >> k) & 0xFF` is `p / 2 ^ k % 256`.
The `jlong` handle is `Option OCRHandle` (`none` is the zero/invalid handle).
The opaque ONNX sessions are modelled as opaque identifiers, and a session
run is an explicit parameter of type `... → Except Fault ...` standing for
the runtime callable, which may throw. -/

/-- a C++ exception (`std::exception`) raised inside the native code. -/
inductive Fault
  | err (msg : String)
  deriving DecidableEq

/-- a PixelImage: width, height and the packed 32-bit pixel words of the
bitmap, row-major (spec §3; the source reads them via `AndroidBitmap_lockPixels`). -/
structure PixelImage where
  width : Nat
  height : Nat
  pixels : List Nat
  deriving DecidableEq

/-- the `OCRHandle` struct (source lines 18–22): three session pointers,
modelled as opaque session identifiers. -/
structure OCRHandle where
  detSession : Nat
  clsSession : Nat
  recSession : Nat
  deriving DecidableEq

/-- byte extraction `(pixel >> 16) & 0xFF` (source line 76): on an unsigned
32-bit word this is `pixel / 2^16 % 256`, bits 16–23. -/
def redByte (p : Nat) : Nat := p / 2 ^ 16 % 256

/-- byte extraction `(pixel >> 8) & 0xFF` (source line 77), bits 8–15. -/
def greenByte (p : Nat) : Nat := p / 2 ^ 8 % 256

/-- byte extraction `pixel & 0xFF` (source line 78), bits 0–7. -/
def blueByte (p : Nat) : Nat := p % 256

/-- the pixel-to-tensor loop inside `nativeDetectText` (source lines 69–86):
for every pixel index `idx = y*width + x` the loop writes
`inputTensor[c*height*width + idx] = byte/255` for the red (`c=0`), green
(`c=1`) and blue (`c=2`) bytes, so the resulting buffer is the red plane,
then the green plane, then the blue plane, each row-major. -/
def chwTensorDet (width height : Nat) (buf : List Nat) : List ℚ :=
  ((List.range (height * width)).map fun idx => (redByte (buf.getD idx 0) : ℚ) / 255) ++
  ((List.range (height * width)).map fun idx => (greenByte (buf.getD idx 0) : ℚ) / 255) ++
  ((List.range (height * width)).map fun idx => (blueByte (buf.getD idx 0) : ℚ) / 255)

/-- the pixel-to-tensor loop inside `nativeRecognizeText` (source lines
148–164), transliterated from its own site; it is textually the same loop
as the one in `nativeDetectText`. -/
def chwTensorRec (width height : Nat) (buf : List Nat) : List ℚ :=
  ((List.range (height * width)).map fun idx => (redByte (buf.getD idx 0) : ℚ) / 255) ++
  ((List.range (height * width)).map fun idx => (greenByte (buf.getD idx 0) : ℚ) / 255) ++
  ((List.range (height * width)).map fun idx => (blueByte (buf.getD idx 0) : ℚ) / 255)

/-- observable outcome of one run of the encoding loop over an arbitrary
source buffer. -/
inductive EncodeOutcome
  | ok (t : List ℚ)
  | encodingError
  | oobRead (firstIndex : Nat)
  deriving DecidableEq

/-- the encoding step of `nativeDetectText` (source lines 62–87) over an
arbitrary source buffer.  The loop reads `rgbaPixels[idx]` for
`idx = 0, …, height*width − 1` in increasing order with no bounds check and
no error path: when the buffer has at least `height*width` words the loop
completes and yields the planar tensor; when it is shorter, the first read
past the end happens at index `buf.length` (undefined behaviour in the C++
source, surfaced here as `oobRead`).  No code path produces the spec's
`EncodingError`; the constructor exists so the spec's taxonomy is
expressible. -/
def encodeCHW (width height : Nat) (buf : List Nat) : EncodeOutcome :=
  if height * width ≤ buf.length then .ok (chwTensorDet width height buf)
  else .oobRead buf.length

/-- the detection-output parsing loop of `nativeDetectText` (source lines
101–117): when the output shape has at least 3 dimensions, take
`numDets = shape[1]` and `featDim = shape[2]`, collect each row's `featDim`
values in order from the flat data buffer, and keep a row exactly when
`detection.size() > 8 && detection[8] > 0.5f`; otherwise no rows are
collected.  The function is total: no input makes it signal an error. -/
def decodeDetections (shape : List Nat) (data : List ℚ) : List (List ℚ) :=
  if 3 ≤ shape.length then
    let numDets := shape.getD 1 0
    let featDim := shape.getD 2 0
    ((List.range numDets).map fun i =>
        (List.range featDim).map fun j => data.getD (i * featDim + j) 0).filter
      fun det => decide (8 < det.length ∧ (1 : ℚ) / 2 < det.getD 8 0)
  else []

/-- a heap allocation made by `nativeInit` (`new OCRHandle()` and the three
`new Ort::Session(...)` at source lines 35–38). -/
inductive Alloc
  | handleStruct
  | detAlloc (id : Nat)
  | clsAlloc (id : Nat)
  | recAlloc (id : Nat)
  deriving DecidableEq

/-- the body of `nativeInit` (source lines 32–52).  The three model loads
are parameters (`Except Fault` models an `Ort::Session` constructor that may
throw).  The code allocates the handle struct, then attempts the three loads
in order det, cls, rec; the `catch` block only logs and returns 0 — it
deletes nothing, so the second component lists every allocation made during
the call that is still allocated when the call returns (on success these are
exactly the allocations owned by the returned handle; on failure they are
unreachable). -/
def nativeInit (loadDet loadCls loadRec : Except Fault Nat) :
    Option OCRHandle × List Alloc :=
  match loadDet with
  | .error _ => (none, [.handleStruct])
  | .ok d =>
    match loadCls with
    | .error _ => (none, [.handleStruct, .detAlloc d])
    | .ok c =>
      match loadRec with
      | .error _ => (none, [.handleStruct, .detAlloc d, .clsAlloc c])
      | .ok r => (some ⟨d, c, r⟩, [.handleStruct, .detAlloc d, .clsAlloc c, .recAlloc r])

/-- an observable side effect of a detect/recognize call: running the
pixel-encoding loop, or invoking a session's `Run`. -/
inductive Effect
  | encode
  | runDetSession
  | runRecSession
  deriving DecidableEq

/-- result of one boundary call: the value returned across the JNI boundary
(`none` is the `nullptr` sentinel), the contents of the handle struct after
the call (the source never assigns to `h->detSession`/`clsSession`/`recSession`
inside detect/recognize, so a faithful embedding passes the handle through
unchanged), and the effects performed. -/
structure CallResult (α : Type) where
  result : Option α
  handleAfter : Option OCRHandle
  effects : List Effect
  deriving DecidableEq

/-- the `try` block of `nativeDetectText` (source lines 61–127): encode the
bitmap with the loop at lines 69–86, run the detection session (which may
throw), and parse its output with the loop at lines 101–117.  Any
`std::exception` raised inside is an `Except.error`. -/
def detectBody (h : OCRHandle) (img : PixelImage)
    (runDet : OCRHandle → List ℚ → Except Fault (List Nat × List ℚ)) :
    Except Fault (List (List ℚ)) := do
  let t := chwTensorDet img.width img.height img.pixels
  let (shape, data) ← runDet h t
  pure (decodeDetections shape data)

/-- `nativeDetectText` (source lines 55–132): `if (!handle) return nullptr;`
before any work, then the `try` body with `catch (std::exception)` turned
into the `nullptr` sentinel. -/
def nativeDetectText (handle : Option OCRHandle) (img : PixelImage)
    (runDet : OCRHandle → List ℚ → Except Fault (List Nat × List ℚ)) :
    CallResult (List (List ℚ)) :=
  match handle with
  | none => ⟨none, none, []⟩
  | some h =>
    match detectBody h img runDet with
    | .ok r => ⟨some r, some h, [.encode, .runDetSession]⟩
    | .error _ => ⟨none, some h, [.encode, .runDetSession]⟩

/-- the `try` block of `nativeRecognizeText` (source lines 140–177): encode
the bitmap with the loop at lines 148–164, run the recognition session, then
ignore its output entirely and return the placeholder string of line 176
(`std::string result = "123456"; // Mock water meter reading`). -/
def recognizeBody (h : OCRHandle) (img : PixelImage)
    (runRec : OCRHandle → List ℚ → Except Fault (List Nat × List ℚ)) :
    Except Fault String := do
  let t := chwTensorRec img.width img.height img.pixels
  let _out ← runRec h t
  pure "123456"

/-- `nativeRecognizeText` (source lines 134–182): `if (!handle) return
nullptr;` before any work, then the `try` body with `catch` turned into the
`nullptr` sentinel. -/
def nativeRecognizeText (handle : Option OCRHandle) (img : PixelImage)
    (runRec : OCRHandle → List ℚ → Except Fault (List Nat × List ℚ)) :
    CallResult String :=
  match handle with
  | none => ⟨none, none, []⟩
  | some h =>
    match recognizeBody h img runRec with
    | .ok s => ⟨some s, some h, [.encode, .runRecSession]⟩
    | .error _ => ⟨none, some h, [.encode, .runRecSession]⟩

/-- helper for `collapseRepeats`: drop elements equal to the previous one. -/
def collapseAux (prev : Nat) : List Nat → List Nat
  | [] => []
  | b :: rest => if b = prev then collapseAux prev rest else b :: collapseAux b rest

/-- collapse consecutive repeated symbols into one (spec §4.5 / glossary). -/
def collapseRepeats : List Nat → List Nat
  | [] => []
  | a :: rest => a :: collapseAux a rest

/-- Modelled from the spec: the Recognition Decoder's greedy sequence decode
(spec §4.5), which is absent from the source — `nativeRecognizeText` returns
a placeholder instead.  Per the spec's words: collapse consecutive repeated
symbols into one, drop the reserved blank index, and concatenate the
remaining symbols in timestep order using the vocabulary lookup table. -/
def ctcGreedyDecode (vocab : List String) (blank : Nat) (idxs : List Nat) : String :=
  String.join (((collapseRepeats idxs).filter fun i => i ≠ blank).map
    fun i => vocab.getD i "")

/-- first row of the synthetic (1,3,9) detection tensor of spec §8:
eight geometry fields and confidence 0.9. -/
def detRow0 : List ℚ := [1, 2, 3, 4, 5, 6, 7, 8, 9 / 10]

/-- second row: confidence 0.4. -/
def detRow1 : List ℚ := [11, 12, 13, 14, 15, 16, 17, 18, 2 / 5]

/-- third row: confidence 0.5001. -/
def detRow2 : List ℚ := [21, 22, 23, 24, 25, 26, 27, 28, 5001 / 10000]

/-- the flat data buffer of the synthetic (1,3,9) detection tensor. -/
def detExData : List ℚ := detRow0 ++ detRow1 ++ detRow2

/-! Helper lemmas. -/

/-- getD through a mapped range, at an in-range index. -/
lemma getD_map_range (g : Nat → ℚ) (n k : Nat) (hk : k < n) (d : ℚ) :
    ((List.range n).map g).getD k d = g k := by
  rw [List.getD_eq_getElem?_getD, List.getElem?_map]
  simp [List.getElem?_range, hk]

/-- filter of a mapped list is the map of the filtered list. -/
lemma filter_of_map {α β : Type} (f : α → β) (p : β → Bool) (l : List α) :
    (l.map f).filter p = (l.filter fun a => p (f a)).map f := by
  induction l with
  | nil => rfl
  | cons a t ih => by_cases hpa : p (f a) <;> simp [List.filter_cons, hpa, ih]

/-- a pixel's row-major offset is inside the plane. -/
lemma pixel_index_lt {w h y x : Nat} (hy : y < h) (hx : x < w) :
    y * w + x < h * w :=
  calc y * w + x < y * w + w := by omega
    _ = (y + 1) * w := by ring
    _ ≤ h * w := Nat.mul_le_mul_right w hy

/-- a byte value divided by 255 lies in the unit interval. -/
lemma byte_div_unit {b : Nat} (hb : b ≤ 255) :
    0 ≤ (b : ℚ) / 255 ∧ (b : ℚ) / 255 ≤ 1 := by
  constructor
  · positivity
  · rw [div_le_one (by norm_num)]
    exact_mod_cast hb

lemma redByte_le (p : Nat) : redByte p ≤ 255 :=
  Nat.le_of_lt_succ (Nat.mod_lt _ (by norm_num))

lemma greenByte_le (p : Nat) : greenByte p ≤ 255 :=
  Nat.le_of_lt_succ (Nat.mod_lt _ (by norm_num))

lemma blueByte_le (p : Nat) : blueByte p ≤ 255 :=
  Nat.le_of_lt_succ (Nat.mod_lt _ (by norm_num))

lemma chwTensorDet_length (w h : Nat) (buf : List Nat) :
    (chwTensorDet w h buf).length = 3 * (h * w) := by
  simp [chwTensorDet]
  ring

/-- plane 0 of the detect-site tensor holds the red byte over 255. -/
lemma chwTensorDet_red (w h : Nat) (buf : List Nat) {idx : Nat} (hidx : idx < h * w) :
    (chwTensorDet w h buf)[idx]? = some ((redByte (buf.getD idx 0) : ℚ) / 255) := by
  unfold chwTensorDet
  simp only [List.getElem?_append, List.length_append, List.length_map, List.length_range]
  rw [if_pos (by omega), if_pos (by omega), List.getElem?_map]
  simp [List.getElem?_range, hidx]

/-- plane 1 of the detect-site tensor holds the green byte over 255. -/
lemma chwTensorDet_green (w h : Nat) (buf : List Nat) {idx : Nat} (hidx : idx < h * w) :
    (chwTensorDet w h buf)[h * w + idx]? =
      some ((greenByte (buf.getD idx 0) : ℚ) / 255) := by
  unfold chwTensorDet
  simp only [List.getElem?_append, List.length_append, List.length_map, List.length_range]
  rw [if_pos (by omega), if_neg (by omega)]
  have harith : h * w + idx - h * w = idx := by omega
  rw [harith, List.getElem?_map]
  simp [List.getElem?_range, hidx]

/-- plane 2 of the detect-site tensor holds the blue byte over 255. -/
lemma chwTensorDet_blue (w h : Nat) (buf : List Nat) {idx : Nat} (hidx : idx < h * w) :
    (chwTensorDet w h buf)[2 * (h * w) + idx]? =
      some ((blueByte (buf.getD idx 0) : ℚ) / 255) := by
  unfold chwTensorDet
  simp only [List.getElem?_append, List.length_append, List.length_map, List.length_range]
  rw [if_neg (by omega)]
  have harith : 2 * (h * w) + idx - (h * w + h * w) = idx := by omega
  rw [harith, List.getElem?_map]
  simp [List.getElem?_range, hidx]

/-- every element of the detect-site tensor is a byte over 255, hence in [0,1]. -/
lemma chwTensorDet_mem_unit (w h : Nat) (buf : List Nat) :
    ∀ q ∈ chwTensorDet w h buf, 0 ≤ q ∧ q ≤ 1 := by
  intro q hq
  simp only [chwTensorDet, List.mem_append, List.mem_map, List.mem_range] at hq
  rcases hq with (⟨i, _, rfl⟩ | ⟨i, _, rfl⟩) | ⟨i, _, rfl⟩
  · exact byte_div_unit (redByte_le _)
  · exact byte_div_unit (greenByte_le _)
  · exact byte_div_unit (blueByte_le _)

/-! Claim theorems. -/

/-- C1: for every PixelImage of width `w`, height `h` and a pixel buffer of
at least `w*h` words, the encoder produces exactly `3*h*w` floats in planar
order: plane 0 at offset `y*w+x` holds the red byte (bits 16–23) of the
pixel word over 255, plane 1 the green byte (bits 8–15), plane 2 the blue
byte (bits 0–7); every element lies in [0,1]. -/
theorem tensor_encoder_layout (w h : Nat) (buf : List Nat)
    (hbuf : h * w ≤ buf.length) :
    ∃ t, encodeCHW w h buf = .ok t ∧
      t.length = 3 * (h * w) ∧
      (∀ y x, y < h → x < w →
        t[0 * (h * w) + (y * w + x)]? =
          some ((redByte (buf.getD (y * w + x) 0) : ℚ) / 255) ∧
        t[1 * (h * w) + (y * w + x)]? =
          some ((greenByte (buf.getD (y * w + x) 0) : ℚ) / 255) ∧
        t[2 * (h * w) + (y * w + x)]? =
          some ((blueByte (buf.getD (y * w + x) 0) : ℚ) / 255)) ∧
      ∀ q ∈ t, 0 ≤ q ∧ q ≤ 1 := by
  refine ⟨chwTensorDet w h buf, by simp [encodeCHW, hbuf], chwTensorDet_length w h buf,
    ?_, chwTensorDet_mem_unit w h buf⟩
  intro y x hy hx
  have hidx : y * w + x < h * w := pixel_index_lt hy hx
  refine ⟨?_, ?_, ?_⟩
  · simpa using chwTensorDet_red w h buf hidx
  · simpa [one_mul] using chwTensorDet_green w h buf hidx
  · exact chwTensorDet_blue w h buf hidx

/-- concrete witness for C1: a 1×1 image whose only pixel word is
`0x00FF8040` (red 255, green 128, blue 64). -/
theorem tensor_encoder_layout_witness :
    1 * 1 ≤ ([16744512] : List Nat).length ∧
    (∃ t, encodeCHW 1 1 [16744512] = .ok t ∧
      t.length = 3 * (1 * 1) ∧
      (∀ y x, y < 1 → x < 1 →
        t[0 * (1 * 1) + (y * 1 + x)]? =
          some ((redByte (([16744512] : List Nat).getD (y * 1 + x) 0) : ℚ) / 255) ∧
        t[1 * (1 * 1) + (y * 1 + x)]? =
          some ((greenByte (([16744512] : List Nat).getD (y * 1 + x) 0) : ℚ) / 255) ∧
        t[2 * (1 * 1) + (y * 1 + x)]? =
          some ((blueByte (([16744512] : List Nat).getD (y * 1 + x) 0) : ℚ) / 255)) ∧
      ∀ q ∈ t, 0 ≤ q ∧ q ≤ 1) :=
  ⟨by norm_num, tensor_encoder_layout 1 1 [16744512] (by norm_num)⟩

/-- C10: the pixel-to-tensor loop inside `nativeDetectText` and the one
inside `nativeRecognizeText` compute element-for-element identical tensors
from the same image, and the tensor has the (1,3,H,W) element count. -/
theorem encode_loops_identical (w h : Nat) (buf : List Nat) :
    chwTensorDet w h buf = chwTensorRec w h buf ∧
    (chwTensorRec w h buf).length = 3 * (h * w) :=
  ⟨rfl, chwTensorDet_length w h buf⟩

/-- C5 counterexample: on a buffer smaller than width·height (here an empty
buffer for a declared 1×1 image) the encoder does not raise an
EncodingError — it reads past the buffer (first out-of-bounds index 0). -/
theorem encoder_small_buffer_counterexample :
    encodeCHW 1 1 [] = .oobRead 0 ∧ encodeCHW 1 1 [] ≠ .encodingError := by
  have hval : encodeCHW 1 1 [] = .oobRead 0 := by norm_num [encodeCHW]
  refine ⟨hval, ?_⟩
  rw [hval]
  intro hcon
  exact EncodeOutcome.noConfusion hcon

/-- C5 amended: the encoder performs no buffer-size check and never raises
an EncodingError; with at least `h*w` words it succeeds, and with fewer it
performs an out-of-bounds read at index `buf.length` instead of failing
with an EncodingError. -/
theorem encoder_no_size_check (w h : Nat) (buf : List Nat) :
    encodeCHW w h buf ≠ .encodingError ∧
    ((∃ t, encodeCHW w h buf = .ok t) ↔ h * w ≤ buf.length) ∧
    (encodeCHW w h buf = .oobRead buf.length ↔ buf.length < h * w) := by
  unfold encodeCHW
  by_cases hle : h * w ≤ buf.length
  · rw [if_pos hle]
    refine ⟨by simp, by simp [hle], ?_⟩
    simp only [iff_iff_implies_and_implies]
    constructor
    · intro hcon
      exact absurd hcon (by simp)
    · intro hlt
      omega
  · rw [if_neg hle]
    refine ⟨by simp, by simp [hle], ?_⟩
    simp only [iff_iff_implies_and_implies]
    exact ⟨fun _ => by omega, fun _ => by simp⟩

/-- closed instance of the amended C5 statement at a concrete input. -/
theorem encoder_no_size_check_witness :
    encodeCHW 2 1 [7, 8] ≠ .encodingError ∧
    ((∃ t, encodeCHW 2 1 [7, 8] = .ok t) ↔ 1 * 2 ≤ ([7, 8] : List Nat).length) ∧
    (encodeCHW 2 1 [7, 8] = .oobRead ([7, 8] : List Nat).length ↔
      ([7, 8] : List Nat).length < 1 * 2) :=
  encoder_no_size_check 2 1 [7, 8]

/-- C2: on a (1,N,F) detection tensor the decoder returns exactly the rows
(each as its F feature values in feature order) whose 0-indexed position 8
strictly exceeds 0.5, in the original row order — when F is not > 8 nothing
is returned; and on the synthetic (1,3,9) tensor with confidences
0.9, 0.4, 0.5001 exactly the first and third rows are returned, in that
order. -/
theorem detection_decoder_threshold :
    (∀ (N F : Nat) (data : List ℚ),
      decodeDetections [1, N, F] data =
        if 8 < F then
          ((List.range N).filter fun i =>
              decide ((1 : ℚ) / 2 < data.getD (i * F + 8) 0)).map
            fun i => (List.range F).map fun j => data.getD (i * F + j) 0
        else []) ∧
    decodeDetections [1, 3, 9] detExData = [detRow0, detRow2] := by
  constructor
  · intro N F data
    unfold decodeDetections
    rw [if_pos (by simp)]
    simp only [List.getD]
    by_cases h8 : 8 < F
    · rw [if_pos h8, filter_of_map]
      congr 1
      apply List.filter_congr
      intro i _
      simp [List.length_map, List.length_range, h8, getD_map_range _ F 8 h8]
    · rw [if_neg h8]
      rw [List.filter_eq_nil_iff]
      intro det hdet
      simp only [List.mem_map] at hdet
      obtain ⟨i, _, rfl⟩ := hdet
      simp [List.length_map, List.length_range, h8]
  · norm_num [decodeDetections, detExData, detRow0, detRow1, detRow2,
      List.filter, List.range_succ, List.getD]

/-- C7: a detection output with at least 3 shape dimensions and N = 0
candidate rows decodes to the empty sequence (the decoder is total — it has
no error outcome). -/
theorem detection_decoder_empty (shape : List Nat) (data : List ℚ)
    (hdim : 3 ≤ shape.length) (hN : shape.getD 1 0 = 0) :
    decodeDetections shape data = [] := by
  have hN2 : shape[1]?.getD 0 = 0 := by
    simpa [List.getD_eq_getElem?_getD] using hN
  unfold decodeDetections
  simp [hdim, hN2]

/-- closed instance of C7 on a concrete (1,0,9) tensor. -/
theorem detection_decoder_empty_witness :
    3 ≤ ([1, 0, 9] : List Nat).length ∧ ([1, 0, 9] : List Nat).getD 1 0 = 0 ∧
    decodeDetections [1, 0, 9] [] = [] :=
  ⟨by norm_num, by norm_num [List.getD],
    detection_decoder_empty [1, 0, 9] [] (by norm_num) (by norm_num [List.getD])⟩

/-- C4 counterexample: when the det model loads (session id 1) and the cls
model load then throws, `nativeInit` returns the invalid handle but the
already-loaded det session is still allocated when the call returns — the
catch block deletes nothing, so the loaded session is not released. -/
theorem init_partial_failure_leaks_counterexample :
    nativeInit (.ok 1) (.error (.err "cls load failed")) (.ok 2) =
      (none, [.handleStruct, .detAlloc 1]) ∧
    Alloc.detAlloc 1 ∈ (nativeInit (.ok 1) (.error (.err "cls load failed")) (.ok 2)).2 := by
  constructor
  · rfl
  · simp [nativeInit]

/-- C4 amended: if loading any of the three models raises during init, init
returns the invalid (null) handle and exposes no partially initialized
handle, but the allocations made before the failure — the handle struct and
every session already loaded — are not released before init returns. -/
theorem init_failure_no_partial_handle :
    (∀ (f : Fault) (c r : Except Fault Nat),
      nativeInit (.error f) c r = (none, [.handleStruct])) ∧
    (∀ (d : Nat) (f : Fault) (r : Except Fault Nat),
      nativeInit (.ok d) (.error f) r = (none, [.handleStruct, .detAlloc d])) ∧
    (∀ (d c : Nat) (f : Fault),
      nativeInit (.ok d) (.ok c) (.error f) =
        (none, [.handleStruct, .detAlloc d, .clsAlloc c])) :=
  ⟨fun _ _ _ => rfl, fun _ _ _ => rfl, fun _ _ _ => rfl⟩

/-- C6: calling detect or recognize with the invalid (null) handle returns
the null sentinel immediately, with no pixel encoding and no session run
(the effect trace is empty). -/
theorem invalid_handle_rejected_immediately :
    (∀ (img : PixelImage) (runDet : OCRHandle → List ℚ → Except Fault (List Nat × List ℚ)),
      nativeDetectText none img runDet = ⟨none, none, []⟩) ∧
    (∀ (img : PixelImage) (runRec : OCRHandle → List ℚ → Except Fault (List Nat × List ℚ)),
      nativeRecognizeText none img runRec = ⟨none, none, []⟩) :=
  ⟨fun _ _ => rfl, fun _ _ => rfl⟩

/-- C8: a fault raised inside the try body of detect or recognize is caught
at the boundary and converted into the null sentinel for that call only; the
call leaves the handle's three sessions unchanged (`handleAfter = some h`),
so the handle stays usable. -/
theorem boundary_fault_containment (h : OCRHandle) (img img' : PixelImage)
    (runDet runRec : OCRHandle → List ℚ → Except Fault (List Nat × List ℚ))
    (f g : Fault)
    (hd : detectBody h img runDet = .error f)
    (hr : recognizeBody h img' runRec = .error g) :
    nativeDetectText (some h) img runDet = ⟨none, some h, [.encode, .runDetSession]⟩ ∧
    nativeRecognizeText (some h) img' runRec = ⟨none, some h, [.encode, .runRecSession]⟩ := by
  constructor
  · simp only [nativeDetectText, hd]
  · simp only [nativeRecognizeText, hr]

/-- closed instance of C8 with a session run that always throws. -/
theorem boundary_fault_containment_witness :
    detectBody ⟨1, 2, 3⟩ ⟨1, 1, [0]⟩ (fun _ _ => .error (.err "boom")) =
      .error (.err "boom") ∧
    recognizeBody ⟨1, 2, 3⟩ ⟨1, 1, [0]⟩ (fun _ _ => .error (.err "boom")) =
      .error (.err "boom") ∧
    (nativeDetectText (some ⟨1, 2, 3⟩) ⟨1, 1, [0]⟩ (fun _ _ => .error (.err "boom")) =
        ⟨none, some ⟨1, 2, 3⟩, [.encode, .runDetSession]⟩ ∧
      nativeRecognizeText (some ⟨1, 2, 3⟩) ⟨1, 1, [0]⟩ (fun _ _ => .error (.err "boom")) =
        ⟨none, some ⟨1, 2, 3⟩, [.encode, .runRecSession]⟩) :=
  ⟨rfl, rfl, boundary_fault_containment ⟨1, 2, 3⟩ ⟨1, 1, [0]⟩ ⟨1, 1, [0]⟩
    (fun _ _ => .error (.err "boom")) (fun _ _ => .error (.err "boom"))
    (.err "boom") (.err "boom") rfl rfl⟩

/-- whenever the recognize try body completes, its value is the placeholder. -/
lemma recognizeBody_ok {h : OCRHandle} {img : PixelImage}
    {run : OCRHandle → List ℚ → Except Fault (List Nat × List ℚ)} {s : String}
    (hs : recognizeBody h img run = .ok s) : s = "123456" := by
  simp only [recognizeBody] at hs
  cases hc : run h (chwTensorRec img.width img.height img.pixels) with
  | ok o =>
    rw [hc] at hs
    exact (Except.ok.inj hs).symm
  | error f =>
    rw [hc] at hs
    exact Except.noConfusion hs

/-- C9: whenever recognize completes without an internal fault on a valid
handle, it returns the constant string "123456" — for any two images and any
two recognition-model behaviours the returned text is the same, independent
of the pixels and of the model output. -/
theorem recognize_output_constant (h : OCRHandle) (img1 img2 : PixelImage)
    (run1 run2 : OCRHandle → List ℚ → Except Fault (List Nat × List ℚ))
    (s1 s2 : String)
    (h1 : (nativeRecognizeText (some h) img1 run1).result = some s1)
    (h2 : (nativeRecognizeText (some h) img2 run2).result = some s2) :
    s1 = "123456" ∧ s2 = "123456" ∧ s1 = s2 := by
  have e1 : s1 = "123456" := by
    cases hb : recognizeBody h img1 run1 with
    | ok s =>
      simp only [nativeRecognizeText, hb, Option.some.injEq] at h1
      rw [← h1]
      exact recognizeBody_ok hb
    | error f =>
      simp [nativeRecognizeText, hb] at h1
  have e2 : s2 = "123456" := by
    cases hb : recognizeBody h img2 run2 with
    | ok s =>
      simp only [nativeRecognizeText, hb, Option.some.injEq] at h2
      rw [← h2]
      exact recognizeBody_ok hb
    | error f =>
      simp [nativeRecognizeText, hb] at h2
  exact ⟨e1, e2, e1.trans e2.symm⟩

/-- closed instance of C9: two different images, two different model
behaviours, same constant result. -/
theorem recognize_output_constant_witness :
    (nativeRecognizeText (some ⟨1, 2, 3⟩) ⟨1, 1, [0]⟩
      (fun _ _ => .ok ([1, 7], [0]))).result = some "123456" ∧
    (nativeRecognizeText (some ⟨1, 2, 3⟩) ⟨2, 1, [5, 6]⟩
      (fun _ _ => .ok ([1, 3, 11], [1, 2, 3]))).result = some "123456" ∧
    ("123456" = "123456" ∧ "123456" = "123456" ∧ ("123456" : String) = "123456") :=
  ⟨rfl, rfl, recognize_output_constant ⟨1, 2, 3⟩ ⟨1, 1, [0]⟩ ⟨2, 1, [5, 6]⟩
    (fun _ _ => .ok ([1, 7], [0])) (fun _ _ => .ok ([1, 3, 11], [1, 2, 3]))
    "123456" "123456" rfl rfl⟩

/-- C3: the greedy sequence decode required by the spec (modelled here as
`ctcGreedyDecode`, since the source has no decoder) maps the index sequence
[4,4,0,7,7,7,1] with blank index 0 to the concatenation of vocabulary[4],
vocabulary[7] and vocabulary[1] in order — while the code, evaluated at an
input whose recognition output is that very sequence, returns the
placeholder "123456"; on the digit vocabulary these differ ("360"). -/
theorem recognition_decode_divergence (vocab : List String) :
    ctcGreedyDecode vocab 0 [4, 4, 0, 7, 7, 7, 1] =
      String.join [vocab.getD 4 "", vocab.getD 7 "", vocab.getD 1 ""] ∧
    (nativeRecognizeText (some ⟨1, 2, 3⟩) ⟨7, 1, [0, 0, 0, 0, 0, 0, 0]⟩
        (fun _ _ => .ok ([1, 7], [4, 4, 0, 7, 7, 7, 1]))).result = some "123456" ∧
    ctcGreedyDecode ["", "0", "1", "2", "3", "4", "5", "6", "7", "8", "9"] 0
        [4, 4, 0, 7, 7, 7, 1] = "360" ∧
    ("360" : String) ≠ "123456" := by
  refine ⟨rfl, rfl, rfl, ?_⟩
  decide

end WaterOCR
